import Mathlib

/-!
Verification of `buildArchitecture.py`, a container state-capture and
repackaging tool.  The Python source is shallowly embedded below: pure string
and list manipulations become Lean functions, Python dictionaries become
insertion-ordered association lists, fallible code returns `Except`, and the
container engine (exec output, file archives) is passed in as explicit data.
-/

/-! ## Python-style association lists (insertion-ordered dictionaries)

A Python `dict` preserves insertion order; assigning to an existing key
replaces the value in place, assigning to a fresh key appends at the end. -/

/-- Lookup in an insertion-ordered association list (first match wins; keys
are unique in all dictionaries built below). -/
def alookup {α : Type} : List (String × α) → String → Option α
  | [], _ => none
  | (k1, v1) :: rest, k => if k1 = k then some v1 else alookup rest k

/-- Python dictionary assignment `d[k] = v`: replace in place if the key is
present, else append at the end. -/
def dictSet {α : Type} : List (String × α) → String → α → List (String × α)
  | [], k, v => [(k, v)]
  | (k1, v1) :: rest, k, v =>
    if k1 = k then (k1, v) :: rest else (k1, v1) :: dictSet rest k v

theorem alookup_nil {α : Type} (k : String) : alookup ([] : List (String × α)) k = none := rfl

theorem alookup_eq_none_iff {α : Type} (d : List (String × α)) (k : String) :
    alookup d k = none ↔ k ∉ d.map Prod.fst := by
  induction d with
  | nil => simp [alookup]
  | cons p rest ih =>
    obtain ⟨k1, v1⟩ := p
    by_cases h : k1 = k <;> simp [alookup, h, ih, Ne.symm, eq_comm]

theorem alookup_isSome_iff {α : Type} (d : List (String × α)) (k : String) :
    (alookup d k).isSome ↔ k ∈ d.map Prod.fst := by
  rw [Option.isSome_iff_ne_none, ne_eq, alookup_eq_none_iff, not_not]

theorem alookup_dictSet_self {α : Type} (d : List (String × α)) (k : String) (v : α) :
    alookup (dictSet d k v) k = some v := by
  induction d with
  | nil => simp [dictSet, alookup]
  | cons p rest ih =>
    obtain ⟨k1, v1⟩ := p
    by_cases h : k1 = k <;> simp [dictSet, alookup, h, ih]

theorem dictSet_of_absent {α : Type} (d : List (String × α)) (k : String) (v : α)
    (h : alookup d k = none) : dictSet d k v = d ++ [(k, v)] := by
  induction d with
  | nil => simp [dictSet]
  | cons p rest ih =>
    obtain ⟨k1, v1⟩ := p
    by_cases hk : k1 = k
    · simp [alookup, hk] at h
    · simp [alookup, hk] at h
      simp [dictSet, hk, ih h]

/-! ## Python string primitives -/

/-- Boolean test that `hay` begins with `needle` (on character lists). -/
def startsWithList : List Char → List Char → Bool
  | _, [] => true
  | [], _ :: _ => false
  | h :: hs, n :: ns => h == n && startsWithList hs ns

/-- Boolean substring test on character lists (`needle` second). -/
def hasSubstr : List Char → List Char → Bool
  | [], needle => startsWithList [] needle
  | h :: t, needle => startsWithList (h :: t) needle || hasSubstr t needle

/-- Python `needle in hay` on strings. -/
def pyIn (needle hay : String) : Bool := hasSubstr hay.data needle.data

/-- Python `s.startswith(pre)`. -/
def pyStartswith (s pre : String) : Bool := startsWithList s.data pre.data

/-- Characters strictly after the first `'='`, i.e. Python `s.split("=", 1)[1]`
(only used under a `startswith` guard that guarantees an `'='` is present). -/
def afterFirstEq : List Char → List Char
  | [] => []
  | c :: rest => if c = '=' then rest else afterFirstEq rest

/-- Characters after the last `'/'` (the whole string when there is none):
Python's `file[file.rfind("/") + 1 :]` and `os.path.basename`. -/
def afterLastSlash (l : List Char) : List Char :=
  l.foldl (fun acc c => if c = '/' then [] else acc ++ [c]) []

/-- Python `os.path.basename` for the POSIX paths this program handles. -/
def py_basename (s : String) : String := ⟨afterLastSlash s.data⟩

/-- Python `s.lower()` (ASCII case mapping suffices for this program). -/
def pyLower (s : String) : String := ⟨s.data.map Char.toLower⟩

/-- Split a character list at every occurrence of `c`, keeping empty pieces,
as Python `s.split(c)` does. -/
def splitCharAux : List Char → Char → List Char → List (List Char)
  | [], _, acc => [acc.reverse]
  | x :: xs, c, acc =>
    if x = c then acc.reverse :: splitCharAux xs c [] else splitCharAux xs c (x :: acc)

/-- Python `s.split(c)` for a one-character separator. -/
def splitChar (s : String) (c : Char) : List String :=
  (splitCharAux s.data c []).map (fun l => ⟨l⟩)

/-- Python `s.splitlines()` restricted to `'\n'` separators (the only line
ending produced by the in-container `find` command): split on newlines and
drop a final empty piece. -/
def pySplitlines (s : String) : List String :=
  if s.data = [] then []
  else
    let parts := splitChar s '\n'
    if parts.getLast? = some "" then parts.dropLast else parts

/-- Python `os.path.join(d, f)` for the relative basenames joined by this
program (no absolute second argument, no trailing separator on `d`). -/
def os_path_join (d f : String) : String := d ++ "/" ++ f

/-- Python `\d` as used on these backup filenames (ASCII digits). -/
def allDigits (l : List Char) : Bool := l.all (fun c => c.isDigit)

/-! ## MSSQL backup deduplication (`MSSQLHandler.get_latest_bak_files`)

The Python code runs `re.match(r"(.*)_(\d{8}_\d{6})\.bak", file)` on each
filename.  `re.match` anchors at the start only, and `.*` is greedy and
cannot cross a newline, so the match succeeds exactly when the file splits as
`name ++ "_" ++ d8 ++ "_" ++ d6 ++ ".bak" ++ rest` with a newline-free `name`,
and group 1 is the longest such `name` (the last possible window). -/

/-- Does the character list begin with `'_'`, eight digits, `'_'`, six
digits, `".bak"` — the fixed 20-character window of the backup regex? -/
def bakWindowAt (l : List Char) : Bool :=
  let w := l.take 20
  w.length == 20 && w.headD ' ' == '_' && allDigits ((w.drop 1).take 8) &&
    (w.drop 9).headD ' ' == '_' && allDigits ((w.drop 10).take 6) &&
    (w.drop 16) == ['.', 'b', 'a', 'k']

/-- Greedy match of `(.*)_(\d{8}_\d{6})\.bak` at the start of the list:
returns `(group 1, group 2)` preferring the latest window, with the prefix
(`.*`) forbidden from containing a newline. -/
def parseBakAux : List Char → Option (List Char × List Char)
  | [] => none
  | c :: cs =>
    match (if c == '\n' then none else parseBakAux cs) with
    | some (n, d) => some (c :: n, d)
    | none =>
      if bakWindowAt (c :: cs) then some ([], ((c :: cs).drop 1).take 15) else none

/-- `re.match(r"(.*)_(\d{8}_\d{6})\.bak", file)` returning
`(group(1), group(2))` on success. -/
def parseBak (s : String) : Option (String × String) :=
  (parseBakAux s.data).map (fun p => (⟨p.1⟩, ⟨p.2⟩))

/-- Python `<` on strings: lexicographic comparison of code points, with a
proper prefix ordered before its extensions. -/
def listLtChar : List Char → List Char → Bool
  | _, [] => false
  | [], _ :: _ => true
  | a :: as, b :: bs => if a < b then true else if b < a then false else listLtChar as bs

/-- Python `a < b` on strings. -/
def pyStrLt (a b : String) : Bool := listLtChar a.data b.data

/-- One iteration of the Python loop body: `file_dict[k] = v` when `k` is
absent or `v` is lexicographically greater than the stored date. -/
def dictUpd : List (String × String) → String → String → List (String × String)
  | [], k, v => [(k, v)]
  | (k1, v1) :: rest, k, v =>
    if k1 = k then (k1, if pyStrLt v1 v then v else v1) :: rest
    else (k1, v1) :: dictUpd rest k v

/-- The `file_dict` built by `MSSQLHandler.get_latest_bak_files`. -/
def buildDict (files : List String) : List (String × String) :=
  files.foldl
    (fun d f =>
      match parseBak f with
      | some (k, v) => dictUpd d k v
      | none => d)
    []

/-- `MSSQLHandler.get_latest_bak_files`: deduplicate backup filenames,
keeping the greatest timestamp per base name, and rebuild the filenames. -/
def get_latest_bak_files (files : List String) : List String :=
  (buildDict files).map (fun kv => kv.1 ++ "_" ++ kv.2 ++ ".bak")

example : parseBak "db1_20230101_000000.bak" = some ("db1", "20230101_000000") := by decide
example : parseBak "readme.txt" = none := by decide
example : parseBak "a_b_20230101_000000.bak" = some ("a_b", "20230101_000000") := by decide
example :
    get_latest_bak_files
      ["db1_20230101_000000.bak", "db1_20230615_120000.bak", "db2_20230301_000000.bak"] =
      ["db1_20230615_120000.bak", "db2_20230301_000000.bak"] := by decide

/-! ### Order facts for the Python string comparison -/

theorem listLtChar_nil_right (l : List Char) : listLtChar l [] = false := by
  cases l <;> rfl

theorem listLtChar_irrefl : ∀ l : List Char, listLtChar l l = false
  | [] => rfl
  | a :: as => by simp [listLtChar, lt_irrefl, listLtChar_irrefl as]

theorem listLtChar_trans :
    ∀ a b c : List Char, listLtChar a b = true → listLtChar b c = true →
      listLtChar a c = true := by
  intro a
  induction a with
  | nil =>
    intro b c h1 h2
    cases c with
    | nil => rw [listLtChar_nil_right] at h2; exact absurd h2 (by simp)
    | cons z zs => rfl
  | cons x xs ih =>
    intro b c h1 h2
    cases b with
    | nil => rw [listLtChar_nil_right] at h1; exact absurd h1 (by simp)
    | cons y ys =>
      cases c with
      | nil => rw [listLtChar_nil_right] at h2; exact absurd h2 (by simp)
      | cons z zs =>
        simp only [listLtChar] at h1 h2 ⊢
        by_cases hxy : x < y
        · by_cases hyz : y < z
          · simp [lt_trans hxy hyz]
          · by_cases hzy : z < y
            · simp [hyz, hzy] at h2
            · have hy : y = z := le_antisymm (not_lt.mp hzy) (not_lt.mp hyz)
              simp [hy ▸ hxy]
        · by_cases hyx : y < x
          · simp [hxy, hyx] at h1
          · have hx : x = y := le_antisymm (not_lt.mp hyx) (not_lt.mp hxy)
            simp only [hxy, if_false, hyx, if_false] at h1
            by_cases hyz : y < z
            · simp [hx ▸ hyz]
            · by_cases hzy : z < y
              · simp [hyz, hzy] at h2
              · have hy : y = z := le_antisymm (not_lt.mp hzy) (not_lt.mp hyz)
                simp only [hyz, if_false, hzy, if_false] at h2
                subst hx
                subst hy
                simp [lt_irrefl, ih ys zs h1 h2]

theorem pyStrLt_irrefl (s : String) : pyStrLt s s = false :=
  listLtChar_irrefl s.data

theorem pyStrLt_trans {a b c : String} (h1 : pyStrLt a b = true) (h2 : pyStrLt b c = true) :
    pyStrLt a c = true :=
  listLtChar_trans a.data b.data c.data h1 h2

/-! ### Behaviour of the `file_dict` update -/

theorem alookup_dictUpd_self (d : List (String × String)) (k v : String) :
    alookup (dictUpd d k v) k =
      some (match alookup d k with
            | none => v
            | some w => if pyStrLt w v then v else w) := by
  induction d with
  | nil => simp [dictUpd, alookup]
  | cons p rest ih =>
    obtain ⟨k1, v1⟩ := p
    by_cases h : k1 = k
    · subst h; simp [dictUpd, alookup]
    · simp [dictUpd, alookup, h, ih]

theorem alookup_dictUpd_ne (d : List (String × String)) (k v k2 : String) (hne : k2 ≠ k) :
    alookup (dictUpd d k v) k2 = alookup d k2 := by
  induction d with
  | nil => simp [dictUpd, alookup, Ne.symm hne]
  | cons p rest ih =>
    obtain ⟨k1, v1⟩ := p
    by_cases h : k1 = k
    · subst h
      have : k1 ≠ k2 := Ne.symm hne
      simp [dictUpd, alookup, this]
    · simp [dictUpd, alookup, h, ih]

theorem keys_dictUpd (d : List (String × String)) (k v : String) :
    (dictUpd d k v).map Prod.fst =
      if k ∈ d.map Prod.fst then d.map Prod.fst else d.map Prod.fst ++ [k] := by
  induction d with
  | nil => simp [dictUpd]
  | cons p rest ih =>
    obtain ⟨k1, v1⟩ := p
    by_cases h : k1 = k
    · subst h; simp [dictUpd]
    · by_cases hm : k ∈ rest.map Prod.fst
      · simp [dictUpd, h, ih, hm, Ne.symm h]
      · simp [dictUpd, h, ih, hm, Ne.symm h]

theorem keys_nodup_dictUpd (d : List (String × String)) (k v : String)
    (h : (d.map Prod.fst).Nodup) : ((dictUpd d k v).map Prod.fst).Nodup := by
  rw [keys_dictUpd]
  by_cases hm : k ∈ d.map Prod.fst
  · simpa [hm] using h
  · simp only [hm, if_false]
    rw [List.nodup_append]
    exact ⟨h, List.nodup_singleton k, by simpa using hm⟩

theorem mem_iff_alookup {α : Type} (d : List (String × α))
    (h : (d.map Prod.fst).Nodup) (k : String) (v : α) :
    (k, v) ∈ d ↔ alookup d k = some v := by
  induction d with
  | nil => simp [alookup]
  | cons p rest ih =>
    obtain ⟨k1, v1⟩ := p
    simp only [List.map_cons, List.nodup_cons] at h
    obtain ⟨hk1, hrest⟩ := h
    by_cases hk : k1 = k
    · subst hk
      constructor
      · intro hmem
        rcases List.mem_cons.mp hmem with heq | hmem2
        · have hv : v = v1 := congrArg Prod.snd heq
          simp [alookup, hv]
        · exact absurd (List.mem_map_of_mem Prod.fst hmem2) hk1
      · intro hv
        have hv1 : some v1 = some v := by simpa [alookup] using hv
        have hv2 : v1 = v := by injection hv1
        exact List.mem_cons.mpr (Or.inl (by rw [← hv2]))
    · simp [alookup, hk, ih hrest, Prod.ext_iff, Ne.symm hk]

/-! ### The deduplication invariant -/

/-- Invariant of `file_dict` after processing a batch of parsed
`(name, date)` pairs `seen`: keys are unique, a key is present exactly when
it was seen, and each stored date is a seen date for that key that no seen
date for the key exceeds. -/
def DictInv (seen : List (String × String)) (d : List (String × String)) : Prop :=
  (d.map Prod.fst).Nodup ∧
  (∀ k, k ∈ d.map Prod.fst ↔ ∃ v, (k, v) ∈ seen) ∧
  (∀ k v, (k, v) ∈ d →
    (k, v) ∈ seen ∧ ∀ w, (k, w) ∈ seen → pyStrLt v w = false)

theorem DictInv_upd {seen d : List (String × String)} (h : DictInv seen d)
    (k0 v0 : String) : DictInv (seen ++ [(k0, v0)]) (dictUpd d k0 v0) := by
  obtain ⟨hnd, hkeys, hent⟩ := h
  refine ⟨keys_nodup_dictUpd _ _ _ hnd, ?_, ?_⟩
  · intro k
    rw [keys_dictUpd]
    by_cases hk : k = k0
    · subst hk
      have hr : ∃ v, (k, v) ∈ seen ++ [(k, v0)] := ⟨v0, by simp⟩
      by_cases hin : k ∈ d.map Prod.fst <;> simp [hin, hr]
    · have hl : (k ∈ (if k0 ∈ d.map Prod.fst then d.map Prod.fst
          else d.map Prod.fst ++ [k0])) ↔ k ∈ d.map Prod.fst := by
        by_cases hin : k0 ∈ d.map Prod.fst <;> simp [hin, hk]
      rw [hl, hkeys k]
      simp [hk]
  · intro k v hmem
    have hnd2 := keys_nodup_dictUpd d k0 v0 hnd
    rw [mem_iff_alookup _ hnd2] at hmem
    by_cases hk : k = k0
    · subst hk
      rw [alookup_dictUpd_self] at hmem
      cases hw : alookup d k with
      | none =>
        rw [hw] at hmem
        replace hmem : v0 = v := by simpa using hmem
        subst hmem
        refine ⟨by simp, ?_⟩
        intro w hwseen
        rcases List.mem_append.mp hwseen with hs | hs
        · exact absurd ((hkeys k).mpr ⟨w, hs⟩) ((alookup_eq_none_iff d k).mp hw)
        · have hw2 : w = v0 := congrArg Prod.snd (List.mem_singleton.mp hs)
          rw [hw2]
          exact pyStrLt_irrefl v0
      | some w0 =>
        rw [hw] at hmem
        replace hmem : (if pyStrLt w0 v0 then v0 else w0) = v := by simpa using hmem
        have hw0mem : (k, w0) ∈ d := (mem_iff_alookup d hnd k w0).mpr hw
        obtain ⟨hseen0, hmax0⟩ := hent k w0 hw0mem
        by_cases hlt : pyStrLt w0 v0 = true
        · have hv : v = v0 := by rw [if_pos hlt] at hmem; exact hmem.symm
          refine ⟨by rw [hv]; simp, ?_⟩
          intro w hwseen
          rcases List.mem_append.mp hwseen with hs | hs
          · rw [hv]
            cases hpv : pyStrLt v0 w with
            | false => rfl
            | true =>
              have htr := pyStrLt_trans hlt hpv
              rw [hmax0 w hs] at htr
              exact absurd htr (by simp)
          · have hw2 : w = v0 := congrArg Prod.snd (List.mem_singleton.mp hs)
            rw [hv, hw2]
            exact pyStrLt_irrefl v0
        · have hv : v = w0 := by rw [if_neg hlt] at hmem; exact hmem.symm
          refine ⟨by rw [hv]; exact List.mem_append_left _ hseen0, ?_⟩
          intro w hwseen
          rcases List.mem_append.mp hwseen with hs | hs
          · rw [hv]
            exact hmax0 w hs
          · have hw2 : w = v0 := congrArg Prod.snd (List.mem_singleton.mp hs)
            rw [hv, hw2]
            cases hb : pyStrLt w0 v0 with
            | false => rfl
            | true => exact absurd hb hlt
    · rw [alookup_dictUpd_ne _ _ _ _ hk] at hmem
      have hmemd : (k, v) ∈ d := (mem_iff_alookup d hnd k v).mpr hmem
      obtain ⟨hs, hm⟩ := hent k v hmemd
      refine ⟨List.mem_append_left _ hs, ?_⟩
      intro w hwseen
      rcases List.mem_append.mp hwseen with h1 | h1
      · exact hm w h1
      · simp only [List.mem_singleton, Prod.mk.injEq] at h1
        exact absurd h1.1 hk

theorem DictInv_foldl :
    ∀ (files : List String) (d seen : List (String × String)),
      DictInv seen d →
      DictInv (seen ++ files.filterMap parseBak)
        (files.foldl
          (fun d f =>
            match parseBak f with
            | some (k, v) => dictUpd d k v
            | none => d)
          d) := by
  intro files
  induction files with
  | nil => intro d seen h; simpa using h
  | cons f fs ih =>
    intro d seen h
    cases hp : parseBak f with
    | none =>
      have := ih d seen h
      simpa [hp, List.filterMap_cons] using this
    | some p =>
      obtain ⟨k, v⟩ := p
      have h2 := DictInv_upd h k v
      have h3 := ih (dictUpd d k v) (seen ++ [(k, v)]) h2
      simpa [hp, List.filterMap_cons, List.append_assoc] using h3

/-- C3: for every list of backup filenames, the deduplication step
`get_latest_bak_files` returns exactly one entry per distinct matched base
name, rebuilt as `<name>_<suffix>.bak` from the lexicographically greatest
digit suffix occurring for that name, and entries with distinct names are
kept independently of one another. -/
theorem get_latest_bak_files_correct (files : List String) :
    ∃ pairs : List (String × String),
      get_latest_bak_files files = pairs.map (fun kv => kv.1 ++ "_" ++ kv.2 ++ ".bak") ∧
      (pairs.map Prod.fst).Nodup ∧
      (∀ k, (∃ f ∈ files, ∃ d, parseBak f = some (k, d)) ↔ k ∈ pairs.map Prod.fst) ∧
      (∀ k d, (k, d) ∈ pairs →
        (∃ f ∈ files, parseBak f = some (k, d)) ∧
        ∀ f ∈ files, ∀ d2, parseBak f = some (k, d2) → pyStrLt d d2 = false) := by
  have h0 : DictInv [] [] := ⟨List.nodup_nil, by simp, by simp⟩
  have h := DictInv_foldl files [] [] h0
  simp only [List.nil_append] at h
  obtain ⟨hnd, hkeys, hent⟩ := h
  have hkeys2 : ∀ k, k ∈ (buildDict files).map Prod.fst ↔
      ∃ v, (k, v) ∈ List.filterMap parseBak files := hkeys
  have hent2 : ∀ k v, (k, v) ∈ buildDict files →
      (k, v) ∈ List.filterMap parseBak files ∧
        ∀ w, (k, w) ∈ List.filterMap parseBak files → pyStrLt v w = false := hent
  refine ⟨buildDict files, rfl, hnd, ?_, ?_⟩
  · intro k
    constructor
    · rintro ⟨f, hf, d2, hp⟩
      exact (hkeys2 k).mpr ⟨d2, List.mem_filterMap.mpr ⟨f, hf, hp⟩⟩
    · intro hmem
      obtain ⟨v, hv⟩ := (hkeys2 k).mp hmem
      obtain ⟨f, hf, hp⟩ := List.mem_filterMap.mp hv
      exact ⟨f, hf, v, hp⟩
  · intro k d hmem
    obtain ⟨hs, hm⟩ := hent2 k d hmem
    constructor
    · obtain ⟨f, hf, hp⟩ := List.mem_filterMap.mp hs
      exact ⟨f, hf, hp⟩
    · intro f hf d2 hp
      exact hm d2 (List.mem_filterMap.mpr ⟨f, hf, hp⟩)

/-- Witness for C3: the characterization evaluated on a concrete set of
backup filenames with a duplicated base name. -/
theorem get_latest_bak_files_correct_witness :
    ∃ pairs : List (String × String),
      get_latest_bak_files
          ["db1_20230101_000000.bak", "db1_20230615_120000.bak", "db2_20230301_000000.bak"] =
        pairs.map (fun kv => kv.1 ++ "_" ++ kv.2 ++ ".bak") ∧
      (pairs.map Prod.fst).Nodup ∧
      (∀ k, (∃ f ∈ ["db1_20230101_000000.bak", "db1_20230615_120000.bak",
          "db2_20230301_000000.bak"], ∃ d, parseBak f = some (k, d)) ↔
        k ∈ pairs.map Prod.fst) ∧
      (∀ k d, (k, d) ∈ pairs →
        (∃ f ∈ ["db1_20230101_000000.bak", "db1_20230615_120000.bak",
          "db2_20230301_000000.bak"], parseBak f = some (k, d)) ∧
        ∀ f ∈ ["db1_20230101_000000.bak", "db1_20230615_120000.bak",
          "db2_20230301_000000.bak"], ∀ d2, parseBak f = some (k, d2) →
            pyStrLt d d2 = false) :=
  get_latest_bak_files_correct
    ["db1_20230101_000000.bak", "db1_20230615_120000.bak", "db2_20230301_000000.bak"]

/-! ## Containers, handlers and the handler factory

A container is the data the program reads from the engine: its generated
name, its image tags, its environment (`attrs["Config"]["Env"]`), its CPU
quota (`attrs["HostConfig"].get("NanoCpus", 0)`, absent modelled as `none`)
and its published-port table (`container.ports`, mapping a port key such as
`"80/tcp"` to `None` or a list of host bindings). -/

/-- One entry of a docker port-binding list (`{"HostIp": .., "HostPort": ..}`). -/
structure PortBinding where
  HostIp : String
  HostPort : String
deriving DecidableEq, Repr

/-- The attributes of a running container that `buildArchitecture.py` reads. -/
structure Container where
  name : String
  image_tags : List String
  env : List String
  nano_cpus : Option Int
  ports : List (String × Option (List PortBinding))
deriving DecidableEq, Repr

/-- The `deploy` block built by `ModbusHandler.get_deploy`:
`{"resources": {"limits": {"cpus": cpus}}}`. -/
structure DeployBlock where
  cpus : String
deriving DecidableEq, Repr

/-- The three registered handler variants. -/
inductive HandlerKind where
  | ignition
  | modbus
  | mssql
deriving DecidableEq, Repr

/-- A resolved container handler: the fields set by `ContainerHandler.__init__`
and by the variant constructors. -/
structure Handler where
  kind : HandlerKind
  container : Container
  container_name : String
  image_name : String
  image_tag : String
  environment_variables : List String
  deploy : Option DeployBlock
deriving DecidableEq, Repr

/-- Errors raised during handler resolution. `handlerNotFound` is
`HandlerFactory.HandlerNotFoundError` (it records the attempted image name);
the other two model Python `IndexError` (empty tag list or a tag without a
colon) and `AttributeError` (container name not matching the name regex). -/
inductive FactoryError where
  | handlerNotFound (image_name : String)
  | indexError
  | attributeError
deriving DecidableEq, Repr

/-- `re.search(r"^[^-]+-([^-]+)-\d+$", container.name).group(1).lower()`:
the name must consist of three nonempty dash-free segments, the last all
digits; the result is the lowercased middle segment.  A failed match makes
`.group` raise `AttributeError`, modelled as `none`. -/
def parse_container_name (name : String) : Option String :=
  match splitChar name '-' with
  | [a, b, c] =>
    if a.data ≠ [] ∧ b.data ≠ [] ∧ c.data ≠ [] ∧ allDigits c.data then
      some (pyLower b)
    else none
  | _ => none

/-- `nano_cpus / 1e9` (`ModbusHandler.nano_cpus_to_cpus`).  At every input
this program's claims evaluate (multiples of 10^9 up to 2^53), the IEEE
double division is exact, so the rational model coincides with the Python
float computation there. -/
def nano_cpus_to_cpus (nano_cpus : ℚ) : ℚ := nano_cpus / 1000000000

/-- Python `str()` on a float, modelled for floats of integral value (the
only values the theorems below evaluate it at): Python renders those as the
integer digits followed by `".0"`.  Other rationals fall back to `toString`
and are not relied upon. -/
def pyFloatStr (q : ℚ) : String :=
  if q.den = 1 then toString q.num ++ ".0" else toString q

/-- `ModbusHandler.get_deploy`: read `NanoCpus` (default 0), convert to a
CPU count, stringify, and wrap as a resource-limit block. -/
def get_deploy (c : Container) : DeployBlock :=
  { cpus := pyFloatStr (nano_cpus_to_cpus ((c.nano_cpus.getD 0 : Int) : ℚ)) }

/-- The loop of `MSSQLHandler.get_sa_password`: for each environment entry
starting with `SA_PASSWORD=`, append `f"SA_PASSWORD={item.split('=',1)[1]}"`. -/
def sa_password_entries (env_list : List String) : List String :=
  env_list.foldl
    (fun acc item =>
      if pyStartswith item "SA_PASSWORD=" then
        acc ++ ["SA_PASSWORD=" ++ (⟨afterFirstEq item.data⟩ : String)]
      else acc)
    []

/-- The environment list of `MSSQLHandler` after `__init__` ran
`get_sa_password`: `["ACCEPT_EULA=Y"]` plus the forwarded entries. -/
def mssql_env (env_list : List String) : List String :=
  "ACCEPT_EULA=Y" :: sa_password_entries env_list

/-- Environment variables set by each variant constructor. -/
def envFor (k : HandlerKind) (c : Container) : List String :=
  match k with
  | .ignition => ["ACCEPT_IGNITION_EULA=Y"]
  | .modbus => []
  | .mssql => mssql_env c.env

/-- Deploy block set by each variant constructor (only `ModbusHandler`
overrides the base `None`). -/
def deployFor (k : HandlerKind) (c : Container) : Option DeployBlock :=
  match k with
  | .ignition => none
  | .modbus => some (get_deploy c)
  | .mssql => none

/-- The variant constructors (all run `ContainerHandler.__init__` first):
parse the short name from the container name, split `tags[0]` at `":"` into
image name and tag (`[1]` raising `IndexError` when there is no colon), then
set the variant's environment and deploy metadata. -/
def mkHandler (k : HandlerKind) (c : Container) : Except FactoryError Handler :=
  match c.image_tags with
  | [] => .error .indexError
  | t :: _ =>
    match parse_container_name c.name with
    | none => .error .attributeError
    | some cname =>
      match splitChar t ':' with
      | iname :: tag :: _ =>
        .ok { kind := k, container := c, container_name := cname,
              image_name := iname, image_tag := tag,
              environment_variables := envFor k c, deploy := deployFor k c }
      | _ => .error .indexError

/-- The registry `HandlerFactory.handlers` as a lookup from base image name
to variant. -/
def handlerKindFor (image_name : String) : Option HandlerKind :=
  if image_name = "inductiveautomation/ignition" then some .ignition
  else if image_name = "kcollins/mssql" then some .mssql
  else if image_name = "qpadgham/mymodbus" then some .modbus
  else none

/-- Python `tag.split(":")[0]`: the base image name of a tag string. -/
def baseImageName (t : String) : String := (splitChar t ':').headD ""

/-- `HandlerFactory.get_handler`: take `container.image.tags[0]`, strip the
tag, construct the registered variant, or raise `HandlerNotFoundError`
carrying the attempted image name. -/
def get_handler (c : Container) : Except FactoryError Handler :=
  match c.image_tags with
  | [] => .error .indexError
  | t :: _ =>
    match handlerKindFor (baseImageName t) with
    | some k => mkHandler k c
    | none => .error (.handlerNotFound (baseImageName t))

/-! ## Compose file generation (`DockerUtils.create_compose_file`) -/

/-- A value stored in a compose service entry: a string, a list of strings,
a deploy block, or Python `None` (serialized by the YAML writer as `null`). -/
inductive ComposeValue where
  | vstr : String → ComposeValue
  | vlist : List String → ComposeValue
  | vdeploy : DeployBlock → ComposeValue
  | vnull : ComposeValue
deriving DecidableEq, Repr

/-- The value put under the `"deploy"` key: `handler.deploy`, which is
either `None` or the resource-limit dict. -/
def deployValue : Option DeployBlock → ComposeValue
  | none => .vnull
  | some d => .vdeploy d

/-- The port-mapping loop: for each entry of `container.ports`, when the
binding list is truthy, append `bindings[0]["HostPort"] + ":" + portKey`. -/
def port_mapping (ports : List (String × Option (List PortBinding))) : List String :=
  ports.foldl
    (fun acc p =>
      match p.2 with
      | some (b :: _) => acc ++ [b.HostPort ++ ":" ++ p.1]
      | _ => acc)
    []

/-- The per-handler service entry dict literal of
`DockerUtils.create_compose_file` (insertion order preserved). -/
def serviceEntry (image_name : String) (h : Handler) : List (String × ComposeValue) :=
  [("container_name", .vstr h.container_name),
   ("image", .vstr ("qpadgham/" ++ image_name ++ ":" ++ h.container_name)),
   ("ports", .vlist (port_mapping h.container.ports)),
   ("environment", .vlist h.environment_variables),
   ("deploy", deployValue h.deploy)]

/-- The `docker_compose["services"]` dict after the loop of
`DockerUtils.create_compose_file`: repeated Python dict assignment keyed by
each handler's short name. -/
def create_compose_services (image_name : String) (handlers : List Handler) :
    List (String × List (String × ComposeValue)) :=
  handlers.foldl
    (fun acc h => dictSet acc h.container_name (serviceEntry image_name h))
    []

/-! ## Archive extraction (`DockerUtils.extract_files_from_container`)

The filesystem is an insertion-ordered map from path to file contents; a
file is either raw bytes or the tar archive returned by `get_archive`
(written verbatim and reopened by `tarfile.open`, so the round trip is the
identity on the archive value). -/

/-- A member of a tar archive: its name and its (opaque) byte content. -/
structure TarMember where
  name : String
  content : String
deriving DecidableEq, Repr

/-- A tar archive as a member list (`getmembers` order). -/
abbrev Archive := List TarMember

/-- Contents of a local file: raw bytes or a stored tar archive. -/
inductive FileData where
  | tar : Archive → FileData
  | raw : String → FileData
deriving DecidableEq, Repr

/-- The local filesystem seen by the extraction routine. -/
abbrev FS := List (String × FileData)

/-- `open(p, "wb")` + write: create or overwrite the file at `p`. -/
def fsWrite (fs : FS) (p : String) (v : FileData) : FS := dictSet fs p v

/-- Python exceptions that can escape the modelled fragments. -/
inductive PyErr where
  | typeError
  | readError
  | keyError
deriving DecidableEq, Repr

/-- `tarfile.extractfile(name)` reads the content of the *last* member
carrying `name` (tar semantics: the last occurrence is authoritative). -/
def lastContent (ar : Archive) (n : String) : Option String :=
  ((ar.filter (fun m => m.name = n)).getLast?).map (fun m => m.content)

/-- `DockerUtils.extract_inner_file`: if the outer file is missing, log and
return; otherwise open it as a tar archive (a non-archive raises
`tarfile.ReadError`), take the first member's name, and — when that name is
truthy (non-empty) — write that member's content to
`extract_to/<member name>`; an empty archive, or a first member with an
empty (falsy) name, just logs. -/
def extract_inner_file (fs : FS) (filepath extract_to : String) : Except PyErr FS :=
  match alookup fs filepath with
  | none => .ok fs
  | some (.raw _) => .error .readError
  | some (.tar []) => .ok fs
  | some (.tar (m :: rest)) =>
    if m.name.data = [] then .ok fs
    else
      match lastContent (m :: rest) m.name with
      | some c => .ok (fsWrite fs (os_path_join extract_to m.name) (.raw c))
      | none => .error .keyError

/-- The per-file body of `DockerUtils.extract_files_from_container`:
`get_archive` failing with `docker.errors.NotFound` (modelled as `none`) is
caught and logged; on success the archive is written to
`destination/<lowercased basename>` and then unpacked in place. -/
def extract_one_file (getArch : String → Option Archive) (fs : FS)
    (destination file : String) : Except PyErr FS :=
  match getArch file with
  | none => .ok fs
  | some data =>
    let file_name := pyLower (py_basename file)
    let file_path := os_path_join destination file_name
    extract_inner_file (fsWrite fs file_path (.tar data)) file_path destination

/-- `DockerUtils.extract_files_from_container`: iterate `for file in
files_to_copy`.  Iterating over Python `None` (a handler's bare `return`)
raises `TypeError` before any file is processed. -/
def extract_files_from_container (getArch : String → Option Archive)
    (files_to_copy : Option (List String)) (fs : FS) (destination : String) :
    Except PyErr FS :=
  match files_to_copy with
  | none => .error .typeError
  | some files =>
    files.foldlM (fun s f => extract_one_file getArch s destination f) fs

/-! ## The `prepare_files` implementations -/

/-- `IgnitionHandler.prepare_files`, as a function of the backup command's
output: when the success marker `"backup saved"` is absent the method logs
and falls off with a bare `return` (Python `None`); otherwise it returns the
fixed file list. -/
def ignition_prepare_files (execOut : String → String) : Option (List String) :=
  let result := execOut "sh -c \"/usr/local/bin/ignition/gwcmd.sh -y -b /usr/local/bin/ignition/data/backup.gwbk\""
  if pyIn "backup saved" result then
    some ["/usr/local/bin/ignition/data/redundancy.xml",
          "/usr/local/bin/ignition/data/.uuid",
          "/usr/local/bin/ignition/data/local/metro-keystore",
          "/usr/local/bin/ignition/data/backup.gwbk"]
  else none

/-- `ModbusHandler.prepare_files`: always the single configuration file. -/
def modbus_prepare_files : Option (List String) := some ["/setup.json"]

/-- `MSSQLHandler.prepare_files`, as a function of the interactively entered
database names and the container's exec outputs: each backup command's
output must contain `"BACKUP DATABASE"` (a failure logs and bare-returns
`None`); on success the `/backups` listing is deduplicated. -/
def mssql_prepare_files (db_names : List String) (execOut : String → String) :
    Option (List String) :=
  if db_names.all (fun db =>
      pyIn "BACKUP DATABASE" (execOut ("sh -c \"./backup.sh " ++ db ++ "\""))) then
    some (get_latest_bak_files (pySplitlines (execOut "sh -c \"find /backups -type f\"")))
  else none

/-- `ContainerHandler.extract_resources`: feed `prepare_files()`'s result
straight into the extraction routine. -/
def extract_resources (files_to_copy : Option (List String))
    (getArch : String → Option Archive) (fs : FS) (folder : String) :
    Except PyErr FS :=
  extract_files_from_container getArch files_to_copy fs folder

/-! ## MSSQL Dockerfile rendering (`MSSQLHandler.create_dockerfile`) -/

/-- `re.match(r"^(.*?)_\d{8}_\d{6}\.bak$", base_name)` group 1: with both
anchors the 20-character window must be the exact suffix, and `.*?` (which
cannot cross a newline) is everything before it. -/
def stripTs (s : String) : Option String :=
  let l := s.data
  if 20 ≤ l.length && bakWindowAt (l.drop (l.length - 20)) &&
      !(l.take (l.length - 20)).any (fun c => c = '\n') then
    some ⟨l.take (l.length - 20)⟩
  else none

/-- The `shortened_filenames` loop: `<group 1>.bak` for every listed file
matching the backup pattern, in listing order. -/
def mssql_shortened_filenames (bak_files : List String) : List String :=
  bak_files.foldl
    (fun acc file =>
      match stripTs (py_basename file) with
      | some base => acc ++ [base ++ ".bak"]
      | none => acc)
    []

/-- The COPY lines: `zip(bak_files, shortened_filenames)` — note the zip is
over the *full* listing on the left and the *filtered* shortened list on the
right. -/
def mssql_copy_lines (bak_files : List String) : List String :=
  (bak_files.zip (mssql_shortened_filenames bak_files)).map
    (fun p => "COPY /" ++ p.1 ++ " /docker-entrypoint-initdb.d/" ++ p.2)

/-- The chown lines, one per shortened filename. -/
def mssql_chown_lines (bak_files : List String) : List String :=
  (mssql_shortened_filenames bak_files).map
    (fun s => "RUN chown mssql /docker-entrypoint-initdb.d/" ++ s)

/-- The full `dockerfile_content` string template of
`MSSQLHandler.create_dockerfile`. -/
def mssql_create_dockerfile_content (image_tag : String) (bak_files : List String) :
    String :=
  "\nFROM kcollins/mssql:" ++ image_tag ++ "\n\n" ++
    String.intercalate "\n" (mssql_copy_lines bak_files) ++ "\nUSER root\n" ++
    String.intercalate "\n" (mssql_chown_lines bak_files) ++ "\nUSER mssql\n"

example : stripTs "db1_20230101_000000.bak" = some "db1" := by decide
example : stripTs "readme.txt" = none := by decide
example : stripTs "db1_20230101_000000.bakx" = none := by decide

/-! ## Concrete sample data used by counterexamples and witnesses -/

/-- A gateway container as the engine reports it. -/
def sampleIgnitionContainer : Container :=
  { name := "proj-app-1", image_tags := ["inductiveautomation/ignition:8.1"],
    env := [], nano_cpus := none,
    ports := [("8088/tcp", some [{ HostIp := "0.0.0.0", HostPort := "8088" }])] }

/-- The handler `get_handler` builds for `sampleIgnitionContainer`. -/
def sampleIgnitionHandler : Handler :=
  { kind := .ignition, container := sampleIgnitionContainer,
    container_name := "app", image_name := "inductiveautomation/ignition",
    image_tag := "8.1", environment_variables := ["ACCEPT_IGNITION_EULA=Y"],
    deploy := none }

/-- A protocol-gateway container with one container port published at two
host ports. -/
def sampleMultiPortContainer : Container :=
  { name := "proj-web-1", image_tags := ["qpadgham/mymodbus:1.0"],
    env := [], nano_cpus := some 0,
    ports := [("80/tcp", some [{ HostIp := "0.0.0.0", HostPort := "8080" },
                               { HostIp := "::", HostPort := "8081" }])] }

/-- The handler `get_handler` builds for `sampleMultiPortContainer`. -/
def sampleMultiPortHandler : Handler :=
  { kind := .modbus, container := sampleMultiPortContainer,
    container_name := "web", image_name := "qpadgham/mymodbus",
    image_tag := "1.0", environment_variables := [],
    deploy := some { cpus := "0.0" } }

/-- First of two database containers sharing the short name `db`. -/
def sampleDbContainer1 : Container :=
  { name := "proj-db-1", image_tags := ["kcollins/mssql:2019"],
    env := [], nano_cpus := none, ports := [] }

/-- Second of two database containers sharing the short name `db`. -/
def sampleDbContainer2 : Container :=
  { name := "proj-db-2", image_tags := ["kcollins/mssql:2019"],
    env := [], nano_cpus := none, ports := [] }

/-- The handler built for `sampleDbContainer1`. -/
def sampleDbHandler1 : Handler :=
  { kind := .mssql, container := sampleDbContainer1,
    container_name := "db", image_name := "kcollins/mssql",
    image_tag := "2019", environment_variables := ["ACCEPT_EULA=Y"],
    deploy := none }

/-- The handler built for `sampleDbContainer2`. -/
def sampleDbHandler2 : Handler :=
  { kind := .mssql, container := sampleDbContainer2,
    container_name := "db", image_name := "kcollins/mssql",
    image_tag := "2019", environment_variables := ["ACCEPT_EULA=Y"],
    deploy := none }

/-! ## Claim C1 -/

/-- C1 (code bug): when the backup command's output lacks the success marker,
`prepare_files` logs and bare-returns Python `None`; `extract_resources`
then iterates over `None` inside `extract_files_from_container` and raises
`TypeError` instead of completing as a soft failure with zero copied files.
Shown here for the gateway variant (marker `"backup saved"`) and the
relational-database variant (marker `"BACKUP DATABASE"`). -/
theorem backup_failure_raises_type_error :
    extract_resources (ignition_prepare_files (fun _ => "error: gateway not ready"))
        (fun _ => none) [] "/out" = .error .typeError ∧
    extract_resources (mssql_prepare_files ["mydb"] (fun _ => "Sqlcmd: Error"))
        (fun _ => none) [] "/out" = .error .typeError := by
  exact ⟨rfl, rfl⟩

/-! ## Claim C2 -/

/-- C2: resolving a container whose base image name (the first tag up to the
colon) is not registered always fails with `HandlerNotFoundError` carrying
exactly that image name — no other error type can be produced on this path. -/
theorem get_handler_unregistered (c : Container) (t : String) (rest : List String)
    (htags : c.image_tags = t :: rest)
    (hreg : handlerKindFor (baseImageName t) = none) :
    get_handler c = .error (.handlerNotFound (baseImageName t)) := by
  have hred : get_handler c =
      match handlerKindFor (baseImageName t) with
      | some k => mkHandler k c
      | none => .error (.handlerNotFound (baseImageName t)) := by
    unfold get_handler
    rw [htags]
  rw [hred, hreg]

/-- A container whose base image is not in the handler registry. -/
def sampleUnregisteredContainer : Container :=
  { name := "proj-app-1", image_tags := ["foo/bar:latest"],
    env := [], nano_cpus := none, ports := [] }

/-- Witness for C2 at a concrete unregistered image. -/
theorem get_handler_unregistered_witness :
    handlerKindFor (baseImageName "foo/bar:latest") = none ∧
    get_handler sampleUnregisteredContainer =
      .error (.handlerNotFound (baseImageName "foo/bar:latest")) :=
  ⟨by decide, get_handler_unregistered _ "foo/bar:latest" [] rfl (by decide)⟩

/-! ## Claim C4 -/

/-- C4 counterexample: a handler without a resource-limit block still gets a
`deploy` key in its compose service entry — mapped to Python `None`
(serialized as `null`) — contradicting the claim that the key is absent. -/
theorem deploy_key_present_counterexample :
    mkHandler .ignition sampleIgnitionContainer = .ok sampleIgnitionHandler ∧
    sampleIgnitionHandler.deploy = none ∧
    alookup (serviceEntry "meta" sampleIgnitionHandler) "deploy" =
      some ComposeValue.vnull := by
  refine ⟨rfl, rfl, rfl⟩

/-- C4 amended: for every handler with no resource-limit block, the compose
service entry contains a `deploy` key whose value is `None`/`null` (the key
is always present, never omitted). -/
theorem deploy_key_null_when_no_limit (img : String) (h : Handler)
    (hd : h.deploy = none) :
    alookup (serviceEntry img h) "deploy" = some ComposeValue.vnull := by
  have hbase : alookup (serviceEntry img h) "deploy" = deployValue h.deploy := rfl
  rw [hbase, hd]
  rfl

/-- Witness for the amended C4. -/
theorem deploy_key_null_when_no_limit_witness :
    sampleIgnitionHandler.deploy = none ∧
    alookup (serviceEntry "meta" sampleIgnitionHandler) "deploy" =
      some ComposeValue.vnull :=
  ⟨rfl, deploy_key_null_when_no_limit "meta" sampleIgnitionHandler rfl⟩

/-! ## Claim C5 -/

/-- The mapping actually emitted per port entry: the first binding only,
rendered `hostPort:portKey`; falsy binding tables yield nothing. -/
def firstPortMapping (p : String × Option (List PortBinding)) : Option String :=
  match p.2 with
  | some (b :: _) => some (b.HostPort ++ ":" ++ p.1)
  | _ => none

theorem port_mapping_foldl (ports : List (String × Option (List PortBinding)))
    (acc : List String) :
    ports.foldl
      (fun acc p =>
        match p.2 with
        | some (b :: _) => acc ++ [b.HostPort ++ ":" ++ p.1]
        | _ => acc)
      acc = acc ++ ports.filterMap firstPortMapping := by
  induction ports generalizing acc with
  | nil => simp
  | cons p t ih =>
    obtain ⟨key, bindings⟩ := p
    match bindings with
    | none => simp [ih, firstPortMapping, List.filterMap_cons]
    | some [] => simp [ih, firstPortMapping, List.filterMap_cons]
    | some (b :: bs) => simp [ih, firstPortMapping, List.filterMap_cons]

theorem port_mapping_eq_filterMap (ports : List (String × Option (List PortBinding))) :
    port_mapping ports = ports.filterMap firstPortMapping := by
  have h := port_mapping_foldl ports []
  simpa [port_mapping] using h

theorem pyFloatStr_zero : pyFloatStr 0 = "0.0" := by
  have hden : (0 : ℚ).den = 1 := by norm_num
  have hnum : (0 : ℚ).num = 0 := by norm_num
  unfold pyFloatStr
  rw [if_pos hden, hnum]
  rfl

theorem pyFloatStr_two : pyFloatStr 2 = "2.0" := by
  have hden : (2 : ℚ).den = 1 := by norm_num
  have hnum : (2 : ℚ).num = 2 := by norm_num
  unfold pyFloatStr
  rw [if_pos hden, hnum]
  rfl

theorem get_deploy_multiPort : get_deploy sampleMultiPortContainer = { cpus := "0.0" } := by
  unfold get_deploy
  have h1 : ((sampleMultiPortContainer.nano_cpus.getD 0 : Int) : ℚ) = 0 := by
    norm_num [sampleMultiPortContainer]
  have h2 : nano_cpus_to_cpus 0 = 0 := by norm_num [nano_cpus_to_cpus]
  rw [h1, h2, pyFloatStr_zero]

theorem mkHandler_multiPort :
    mkHandler .modbus sampleMultiPortContainer = .ok sampleMultiPortHandler := by
  have hdep : deployFor .modbus sampleMultiPortContainer = some { cpus := "0.0" } := by
    unfold deployFor
    rw [get_deploy_multiPort]
  have hred : mkHandler .modbus sampleMultiPortContainer =
      .ok { kind := .modbus, container := sampleMultiPortContainer,
            container_name := "web", image_name := "qpadgham/mymodbus",
            image_tag := "1.0", environment_variables := [],
            deploy := deployFor .modbus sampleMultiPortContainer } := rfl
  rw [hred, hdep]
  rfl

/-- C5 counterexample: a container port published at two host ports loses
its second binding — the compose `ports` list holds only the first mapping,
so it does not contain every published port mapping. -/
theorem ports_first_binding_counterexample :
    mkHandler .modbus sampleMultiPortContainer = .ok sampleMultiPortHandler ∧
    alookup (serviceEntry "meta" sampleMultiPortHandler) "ports" =
      some (.vlist ["8080:80/tcp"]) ∧
    "8081:80/tcp" ∉ (["8080:80/tcp"] : List String) := by
  refine ⟨mkHandler_multiPort, rfl, by decide⟩

/-- C5 amended: the `ports` field of every compose service entry is exactly
the first host binding of each truthy port entry, rendered
`hostPort:portKey`; bindings after the first are omitted. -/
theorem ports_first_binding_only (img : String) (h : Handler) :
    alookup (serviceEntry img h) "ports" =
      some (.vlist (h.container.ports.filterMap firstPortMapping)) := by
  have hbase : alookup (serviceEntry img h) "ports" =
      some (.vlist (port_mapping h.container.ports)) := rfl
  rw [hbase, port_mapping_eq_filterMap]

/-! ## Claim C6 -/

/-- C6 counterexample: two resolvable containers (`proj-db-1`, `proj-db-2`)
share the short name `db`; the services dict then holds a single entry, not
one per handler — the second assignment overwrites the first. -/
theorem compose_duplicate_names_counterexample :
    mkHandler .mssql sampleDbContainer1 = .ok sampleDbHandler1 ∧
    mkHandler .mssql sampleDbContainer2 = .ok sampleDbHandler2 ∧
    (create_compose_services "meta" [sampleDbHandler1, sampleDbHandler2]).length = 1 := by
  exact ⟨rfl, rfl, rfl⟩

theorem compose_fold_keys (hs : List Handler) (img : String)
    (acc : List (String × List (String × ComposeValue)))
    (hfresh : ∀ h2 ∈ hs, h2.container_name ∉ acc.map Prod.fst)
    (hnd : (hs.map Handler.container_name).Nodup) :
    (hs.foldl (fun a h => dictSet a h.container_name (serviceEntry img h)) acc).map
        Prod.fst =
      acc.map Prod.fst ++ hs.map Handler.container_name := by
  induction hs generalizing acc with
  | nil => simp
  | cons h t ih =>
    simp only [List.foldl_cons]
    have habs : alookup acc h.container_name = none :=
      (alookup_eq_none_iff _ _).mpr (hfresh h (List.mem_cons_self h t))
    simp only [List.map_cons, List.nodup_cons] at hnd
    obtain ⟨hnotin, hnd2⟩ := hnd
    rw [dictSet_of_absent _ _ _ habs]
    have hfresh2 : ∀ h2 ∈ t,
        h2.container_name ∉ (acc ++ [(h.container_name, serviceEntry img h)]).map Prod.fst := by
      intro h2 hh2
      rw [List.map_append, List.mem_append]
      rintro (hin | hin)
      · exact hfresh h2 (List.mem_cons_of_mem _ hh2) hin
      · simp only [List.map_cons, List.map_nil, List.mem_singleton] at hin
        exact hnotin (hin ▸ List.mem_map_of_mem Handler.container_name hh2)
    rw [ih _ hfresh2 hnd2]
    simp

/-- C6 amended: when the resolved handlers carry pairwise distinct short
names, the services mapping has exactly one entry per handler, keyed by its
short name, in order — so N handlers give N keys; with duplicated short
names later entries overwrite earlier ones (see the counterexample). -/
theorem compose_services_keys (img : String) (hs : List Handler)
    (hnd : (hs.map Handler.container_name).Nodup) :
    (create_compose_services img hs).map Prod.fst = hs.map Handler.container_name := by
  have h := compose_fold_keys hs img [] (by simp) hnd
  simpa [create_compose_services] using h

/-- Witness for the amended C6 with two distinct short names. -/
theorem compose_services_keys_witness :
    (([sampleIgnitionHandler, sampleDbHandler1].map Handler.container_name).Nodup) ∧
    (create_compose_services "meta" [sampleIgnitionHandler, sampleDbHandler1]).map
        Prod.fst =
      [sampleIgnitionHandler, sampleDbHandler1].map Handler.container_name :=
  ⟨by decide, compose_services_keys "meta" _ (by decide)⟩

/-! ## Claim C7 -/

/-- A protocol-gateway container with a 2-CPU quota (2e9 nanocpus). -/
def sampleModbus2CpuContainer : Container :=
  { name := "proj-plc-1", image_tags := ["qpadgham/mymodbus:1.0"],
    env := [], nano_cpus := some 2000000000, ports := [] }

theorem get_deploy_modbus2Cpu :
    get_deploy sampleModbus2CpuContainer = { cpus := "2.0" } := by
  unfold get_deploy
  have h1 : ((sampleModbus2CpuContainer.nano_cpus.getD 0 : Int) : ℚ) = 2000000000 := by
    norm_num [sampleModbus2CpuContainer]
  have h2 : nano_cpus_to_cpus 2000000000 = 2 := by norm_num [nano_cpus_to_cpus]
  rw [h1, h2, pyFloatStr_two]

/-- C7: the nanocpu conversion used by the protocol-gateway deploy limit is
exact division by 1e9: 2_000_000_000 nanocpus yield exactly 2 CPUs, rendered
`"2.0"`, and 0 nanocpus yield exactly 0 CPUs, rendered `"0.0"` (at these
inputs the Python IEEE-double division is exact, so the rational model
agrees with the source computation). -/
theorem modbus_nanocpu_conversion :
    nano_cpus_to_cpus 2000000000 = 2 ∧ nano_cpus_to_cpus 0 = 0 ∧
    (get_deploy sampleModbus2CpuContainer).cpus = "2.0" ∧
    (get_deploy sampleMultiPortContainer).cpus = "0.0" := by
  refine ⟨by norm_num [nano_cpus_to_cpus], by norm_num [nano_cpus_to_cpus], ?_, ?_⟩
  · rw [get_deploy_modbus2Cpu]
  · rw [get_deploy_multiPort]

/-! ## Claim C8 -/

/-- C8: for a successfully fetched single-entry archive, the extraction
routine first writes the archive to `destination/<lowercased basename of the
in-container path>`, then unpacks the archive's member to
`destination/<member's own name>` with the member's content — a name that
need not equal the outer file's name. -/
theorem extract_single_entry_archive (getArch : String → Option Archive)
    (fs : FS) (dest path : String) (m : TarMember)
    (h : getArch path = some [m]) (hname : m.name.data ≠ []) :
    extract_one_file getArch fs dest path =
      .ok (fsWrite
            (fsWrite fs (os_path_join dest (pyLower (py_basename path))) (.tar [m]))
            (os_path_join dest m.name) (.raw m.content)) := by
  simp only [extract_one_file, h]
  simp only [extract_inner_file, fsWrite, alookup_dictSet_self]
  simp [hname, lastContent]

/-- Witness for C8: fetching `/usr/local/bin/ignition/data/.uuid`, whose
archive member is named `.uuid`, while the outer file is written as `.uuid`
in lowercase. -/
theorem extract_single_entry_archive_witness :
    (fun p => if p = "/usr/local/bin/ignition/data/.uuid" then
        some [({ name := ".uuid", content := "UUIDBYTES" } : TarMember)]
      else none) "/usr/local/bin/ignition/data/.uuid" =
      some [({ name := ".uuid", content := "UUIDBYTES" } : TarMember)] ∧
    ({ name := ".uuid", content := "UUIDBYTES" } : TarMember).name.data ≠ [] ∧
    extract_one_file
        (fun p => if p = "/usr/local/bin/ignition/data/.uuid" then
          some [({ name := ".uuid", content := "UUIDBYTES" } : TarMember)]
        else none)
        [] "/out" "/usr/local/bin/ignition/data/.uuid" =
      .ok (fsWrite
            (fsWrite []
              (os_path_join "/out" (pyLower (py_basename "/usr/local/bin/ignition/data/.uuid")))
              (.tar [{ name := ".uuid", content := "UUIDBYTES" }]))
            (os_path_join "/out" ".uuid") (.raw "UUIDBYTES")) :=
  ⟨rfl, by decide, extract_single_entry_archive _ [] "/out" _
    { name := ".uuid", content := "UUIDBYTES" } rfl (by decide)⟩

/-! ## Claim C9 -/

/-- The `<name>.bak` target filename the Dockerfile template intends for a
backup file (defined when the file matches the backup pattern). -/
def shortNameOf (f : String) : String :=
  match stripTs (py_basename f) with
  | some base => base ++ ".bak"
  | none => ""

theorem mssql_shortened_foldl (files : List String) (acc : List String) :
    files.foldl
      (fun acc file =>
        match stripTs (py_basename file) with
        | some base => acc ++ [base ++ ".bak"]
        | none => acc)
      acc =
      acc ++ files.filterMap
        (fun f => (stripTs (py_basename f)).map (fun b => b ++ ".bak")) := by
  induction files generalizing acc with
  | nil => simp
  | cons f t ih =>
    cases hs : stripTs (py_basename f) with
    | none => simp [hs, ih, List.filterMap_cons]
    | some base => simp [hs, ih, List.filterMap_cons]

theorem mssql_shortened_eq_filterMap (files : List String) :
    mssql_shortened_filenames files =
      files.filterMap (fun f => (stripTs (py_basename f)).map (fun b => b ++ ".bak")) := by
  have h := mssql_shortened_foldl files []
  simpa [mssql_shortened_filenames] using h

theorem filterMap_short_eq_map (files : List String)
    (h : ∀ f ∈ files, (stripTs (py_basename f)).isSome) :
    files.filterMap (fun f => (stripTs (py_basename f)).map (fun b => b ++ ".bak")) =
      files.map shortNameOf := by
  induction files with
  | nil => simp
  | cons f t ih =>
    have hf := h f (List.mem_cons_self f t)
    obtain ⟨base, hbase⟩ := Option.isSome_iff_exists.mp hf
    have ht := ih (fun x hx => h x (List.mem_cons_of_mem f hx))
    simp [List.filterMap_cons, hbase, ht, shortNameOf]

theorem zip_with_map_self {α β : Type} (l : List α) (g : α → β) :
    l.zip (l.map g) = l.map (fun a => (a, g a)) := by
  induction l with
  | nil => rfl
  | cons a t ih => simp [ih]

/-- C9 counterexample: with a non-matching file (`readme.txt`) listed before
a retained backup file, `zip(bak_files, shortened_filenames)` misaligns: the
only COPY instruction copies `readme.txt` under the backup's shortened name,
and no COPY of the backup file itself is emitted, so the claim fails for the
retained file `db1_20230101_000000.bak`. -/
theorem mssql_dockerfile_zip_counterexample :
    mssql_copy_lines ["readme.txt", "db1_20230101_000000.bak"] =
      ["COPY /readme.txt /docker-entrypoint-initdb.d/db1.bak"] ∧
    "COPY /db1_20230101_000000.bak /docker-entrypoint-initdb.d/db1.bak" ∉
      mssql_copy_lines ["readme.txt", "db1_20230101_000000.bak"] ∧
    mssql_create_dockerfile_content "2019" ["readme.txt", "db1_20230101_000000.bak"] =
      "\nFROM kcollins/mssql:2019\n\nCOPY /readme.txt /docker-entrypoint-initdb.d/db1.bak\nUSER root\nRUN chown mssql /docker-entrypoint-initdb.d/db1.bak\nUSER mssql\n" := by
  refine ⟨rfl, by decide, rfl⟩

/-- C9 amended: when every file in the build directory listing matches the
backup pattern, the rendered Dockerfile emits one COPY per listed file,
copying that exact file to the initialization directory renamed with the
timestamp stripped, then `USER root`, one chown per file, and `USER mssql`;
with non-matching files present the zip misaligns (see counterexample). -/
theorem mssql_dockerfile_all_bak (tag : String) (files : List String)
    (h : ∀ f ∈ files, (stripTs (py_basename f)).isSome) :
    mssql_copy_lines files =
      files.map (fun f =>
        "COPY /" ++ f ++ " /docker-entrypoint-initdb.d/" ++ shortNameOf f) ∧
    mssql_chown_lines files =
      files.map (fun f =>
        "RUN chown mssql /docker-entrypoint-initdb.d/" ++ shortNameOf f) ∧
    mssql_create_dockerfile_content tag files =
      "\nFROM kcollins/mssql:" ++ tag ++ "\n\n" ++
        String.intercalate "\n" (mssql_copy_lines files) ++ "\nUSER root\n" ++
        String.intercalate "\n" (mssql_chown_lines files) ++ "\nUSER mssql\n" := by
  have hshort : mssql_shortened_filenames files = files.map shortNameOf := by
    rw [mssql_shortened_eq_filterMap, filterMap_short_eq_map files h]
  refine ⟨?_, ?_, rfl⟩
  · rw [mssql_copy_lines, hshort, zip_with_map_self]
    rw [List.map_map]
    rfl
  · rw [mssql_chown_lines, hshort, List.map_map]
    rfl

/-- Witness for the amended C9 on a directory holding one backup file. -/
theorem mssql_dockerfile_all_bak_witness :
    (∀ f ∈ ["db1_20230101_000000.bak"], (stripTs (py_basename f)).isSome) ∧
    (mssql_copy_lines ["db1_20230101_000000.bak"] =
      ["db1_20230101_000000.bak"].map (fun f =>
        "COPY /" ++ f ++ " /docker-entrypoint-initdb.d/" ++ shortNameOf f) ∧
    mssql_chown_lines ["db1_20230101_000000.bak"] =
      ["db1_20230101_000000.bak"].map (fun f =>
        "RUN chown mssql /docker-entrypoint-initdb.d/" ++ shortNameOf f) ∧
    mssql_create_dockerfile_content "2019" ["db1_20230101_000000.bak"] =
      "\nFROM kcollins/mssql:" ++ "2019" ++ "\n\n" ++
        String.intercalate "\n" (mssql_copy_lines ["db1_20230101_000000.bak"]) ++
        "\nUSER root\n" ++
        String.intercalate "\n" (mssql_chown_lines ["db1_20230101_000000.bak"]) ++
        "\nUSER mssql\n") :=
  ⟨by decide, mssql_dockerfile_all_bak "2019" ["db1_20230101_000000.bak"] (by decide)⟩

/-! ## Claim C10 -/

theorem startsWithList_iff (needle : List Char) :
    ∀ hay : List Char, startsWithList hay needle = true ↔ ∃ rest, hay = needle ++ rest := by
  induction needle with
  | nil =>
    intro hay
    cases hay <;> simp [startsWithList]
  | cons n ns ih =>
    intro hay
    cases hay with
    | nil => simp [startsWithList]
    | cons h hs =>
      simp only [startsWithList, Bool.and_eq_true, beq_iff_eq]
      rw [ih hs]
      constructor
      · rintro ⟨rfl, rest, rfl⟩
        exact ⟨rest, rfl⟩
      · rintro ⟨rest, heq⟩
        injection heq with h1 h2
        exact ⟨h1, rest, h2⟩

theorem afterFirstEq_append (pre rest : List Char) (h : ∀ c ∈ pre, c ≠ '=') :
    afterFirstEq (pre ++ '=' :: rest) = rest := by
  induction pre with
  | nil => simp [afterFirstEq]
  | cons c t ih =>
    have hc : c ≠ '=' := h c (List.mem_cons_self c t)
    simp only [List.cons_append, afterFirstEq, if_neg hc]
    exact ih (fun x hx => h x (List.mem_cons_of_mem c hx))

/-- Rebuilding `SA_PASSWORD=` + everything after the first `=` returns the
original entry whenever the entry starts with `SA_PASSWORD=`. -/
theorem sa_entry_reconstruct (s : String)
    (h : pyStartswith s "SA_PASSWORD=" = true) :
    "SA_PASSWORD=" ++ (⟨afterFirstEq s.data⟩ : String) = s := by
  obtain ⟨rest, hdata⟩ := (startsWithList_iff "SA_PASSWORD=".data s.data).mp h
  have hform : s.data = "SA_PASSWORD".data ++ '=' :: rest := by
    rw [hdata]
    rfl
  have hafter : afterFirstEq s.data = rest := by
    rw [hform]
    exact afterFirstEq_append _ _ (by decide)
  rw [hafter]
  rcases s with ⟨sdata⟩
  simp only at hform
  rw [show ("SA_PASSWORD=" ++ (⟨rest⟩ : String)) =
      (⟨"SA_PASSWORD=".data ++ rest⟩ : String) from rfl]
  rw [hform]
  rfl

theorem sa_entries_foldl (env : List String) (acc : List String) :
    env.foldl
      (fun acc item =>
        if pyStartswith item "SA_PASSWORD=" then
          acc ++ ["SA_PASSWORD=" ++ (⟨afterFirstEq item.data⟩ : String)]
        else acc)
      acc =
      acc ++ (env.filter (fun s => pyStartswith s "SA_PASSWORD=")).map
        (fun s => "SA_PASSWORD=" ++ (⟨afterFirstEq s.data⟩ : String)) := by
  induction env generalizing acc with
  | nil => simp
  | cons item t ih =>
    by_cases hi : pyStartswith item "SA_PASSWORD=" = true
    · simp [hi, ih, List.filter_cons]
    · simp only [Bool.not_eq_true] at hi
      simp [hi, ih, List.filter_cons]

/-- C10: the relational-database handler's environment construction never
fails and always equals `"ACCEPT_EULA=Y"` followed by exactly the
`SA_PASSWORD=`-prefixed entries of the source container's environment, in
order.  In particular, with no such entry the list is exactly
`["ACCEPT_EULA=Y"]` (the password is silently omitted), and with several
such entries one `SA_PASSWORD` entry is appended per matching variable. -/
theorem mssql_env_forwards (env_list : List String) :
    mssql_env env_list =
      "ACCEPT_EULA=Y" :: env_list.filter (fun s => pyStartswith s "SA_PASSWORD=") := by
  unfold mssql_env sa_password_entries
  rw [sa_entries_foldl]
  simp only [List.nil_append]
  congr 1
  have hmem : ∀ s ∈ env_list.filter (fun s => pyStartswith s "SA_PASSWORD="),
      ("SA_PASSWORD=" ++ (⟨afterFirstEq s.data⟩ : String)) = s := by
    intro s hs
    exact sa_entry_reconstruct s (List.mem_filter.mp hs).2
  calc (env_list.filter (fun s => pyStartswith s "SA_PASSWORD=")).map
        (fun s => "SA_PASSWORD=" ++ (⟨afterFirstEq s.data⟩ : String))
      = (env_list.filter (fun s => pyStartswith s "SA_PASSWORD=")).map id := by
        exact List.map_congr_left hmem
    _ = env_list.filter (fun s => pyStartswith s "SA_PASSWORD=") := List.map_id _
